import Mathlib

/-
Verification of the analysis logic in the workshops repository.

Two pipelines are embedded here, translated from the notebooks:

1. The mediation notebook: the data generator gendat(mode) and the
   simplified counterfactual estimator fake_mediation(mode).  Randomness
   is modelled by explicit real-valued draw streams (one stream per call
   to the normal sampler, consumed index-wise); the external OLS solver
   is modelled by abstract fit results carrying a prediction function
   and an estimated scale, supplied by an arbitrary solver function.

2. The NHANES blood-pressure notebook: the wide-to-long melt over the
   eight measurement columns, the sort by subject id, the complete-case
   dropna, the per-subject diastolic-mean group-by, the inner merge that
   attaches it, the iloc[0:5000] truncation, and the row selections the
   mixed models are fit on.  Measurement values are rationals; a missing
   value (NaN) is Option.none.  The mixed-model solver itself is
   external; the derived intraclass correlation formula is embedded.
-/

/- ===== Mediation notebook ===== -/

/-- A simulated data frame with columns x (exposure), m (mediator),
y (outcome); column i holds the value for subject i. -/
structure MedDF where
  x : ℕ → ℝ
  m : ℕ → ℝ
  y : ℕ → ℝ

/-- Translation of gendat(mode): x is a draw from the x-stream, the
mediator is m = (x + e)/sqrt 2, and y follows the if/elif/else on mode
(0: x + noise; 1: m + noise; otherwise m + x + noise). -/
noncomputable def gendat (mode : ℤ) (xd ed yd : ℕ → ℝ) : MedDF :=
  { x := fun i => xd i
    m := fun i => (xd i + ed i) / Real.sqrt 2
    y := fun i =>
      if mode = 0 then xd i + yd i
      else if mode = 1 then (xd i + ed i) / Real.sqrt 2 + yd i
      else (xd i + ed i) / Real.sqrt 2 + xd i + yd i }

/-- Abstract result of the external OLS fit of m ~ x: a prediction
function of the exposure and the estimated residual scale. -/
structure OLSFitM where
  predict : ℝ → ℝ
  scale : ℝ

/-- Abstract result of the external OLS fit of y ~ x + m: a prediction
function of (exposure, mediator) and the estimated residual scale. -/
structure OLSFitO where
  predict : ℝ → ℝ → ℝ
  scale : ℝ

/-- The quadruple returned by fake_mediation. -/
structure MedResult where
  aie : ℝ
  aie_se : ℝ
  ade : ℝ
  ade_se : ℝ

/-- np.mean over an array of length nn, column modelled index-wise. -/
noncomputable def npMean (nn : ℕ) (f : ℕ → ℝ) : ℝ := (∑ i ∈ Finset.range nn, f i) / nn

/-- np.std with its default ddof = 0: the square root of the mean
squared deviation from the mean (divisor nn, no Bessel correction). -/
noncomputable def npStd (nn : ℕ) (f : ℕ → ℝ) : ℝ :=
  Real.sqrt (npMean nn (fun i => (f i - npMean nn f) ^ 2))

/-- Translation of fake_mediation(mode).  The data frame is generated by
gendat, the two sub-models are produced by the abstract external solver
(fitM, fitO); e1..e6 are the six fresh noise streams drawn in source
order (mediator low, mediator high, indirect-low, indirect-high,
direct-low, direct-high).  Each counterfactual prediction substitutes
the fixed exposure / mediator levels and adds noise scaled by the square
root of the relevant fitted scale, exactly as in the notebook. -/
noncomputable def fake_mediation (nn : ℕ) (mode : ℤ)
    (fitM : MedDF → OLSFitM) (fitO : MedDF → OLSFitO)
    (xd ed yd e1 e2 e3 e4 e5 e6 : ℕ → ℝ) : MedResult :=
  let df := gendat mode xd ed yd
  let mm := fitM df
  let om := fitO df
  -- df_xlow: copy of df with x := 0, then predict and add noise
  let m_xlow : ℕ → ℝ := fun i => mm.predict 0 + Real.sqrt mm.scale * e1 i
  -- df_xhigh: copy of df with x := 1, then predict and add noise
  let m_xhigh : ℕ → ℝ := fun i => mm.predict 1 + Real.sqrt mm.scale * e2 i
  -- indirect effect: x fixed at 0, m set to the low then the high draw
  let y_low1 : ℕ → ℝ := fun i => om.predict 0 (m_xlow i) + Real.sqrt om.scale * e3 i
  let y_high1 : ℕ → ℝ := fun i => om.predict 0 (m_xhigh i) + Real.sqrt om.scale * e4 i
  let aie := npMean nn (fun i => y_high1 i - y_low1 i)
  let aie_se := npStd nn (fun i => y_high1 i - y_low1 i) / Real.sqrt nn
  -- direct effect: m fixed at the low draw, x set to 0 then to 1
  let y_low2 : ℕ → ℝ := fun i => om.predict 0 (m_xlow i) + Real.sqrt om.scale * e5 i
  let y_high2 : ℕ → ℝ := fun i => om.predict 1 (m_xlow i) + Real.sqrt om.scale * e6 i
  let ade := npMean nn (fun i => y_high2 i - y_low2 i)
  let ade_se := npStd nn (fun i => y_high2 i - y_low2 i) / Real.sqrt nn
  { aie := aie, aie_se := aie_se, ade := ade, ade_se := ade_se }

/- ===== NHANES blood-pressure notebook ===== -/

/-- Measurement type parsed from the melted column name, bpvar[3:5]. -/
inductive BPType where
  | SY : BPType
  | DI : BPType
deriving DecidableEq

/-- One row of the merged wide table: subject id and the columns used by
the notebook.  BMXBMI and the eight readings may be missing (NaN). -/
structure WideRow where
  seqn : ℤ
  ridageyr : ℚ
  riagendr : ℚ
  bmxbmi : Option ℚ
  bpxsy1 : Option ℚ
  bpxsy2 : Option ℚ
  bpxsy3 : Option ℚ
  bpxsy4 : Option ℚ
  bpxdi1 : Option ℚ
  bpxdi2 : Option ℚ
  bpxdi3 : Option ℚ
  bpxdi4 : Option ℚ
deriving DecidableEq

/-- Look up the measurement column named by (type, repetition index). -/
def getVar (r : WideRow) : BPType × ℕ → Option ℚ
  | (BPType.SY, 1) => r.bpxsy1
  | (BPType.SY, 2) => r.bpxsy2
  | (BPType.SY, 3) => r.bpxsy3
  | (BPType.SY, 4) => r.bpxsy4
  | (BPType.DI, 1) => r.bpxdi1
  | (BPType.DI, 2) => r.bpxdi2
  | (BPType.DI, 3) => r.bpxdi3
  | (BPType.DI, 4) => r.bpxdi4
  | _ => none

/-- The melted value_vars, syvars + divars, in notebook order. -/
def vvars : List (BPType × ℕ) :=
  [(BPType.SY, 1), (BPType.SY, 2), (BPType.SY, 3), (BPType.SY, 4),
   (BPType.DI, 1), (BPType.DI, 2), (BPType.DI, 3), (BPType.DI, 4)]

/-- One row of the long table after pd.melt: the four id_vars, the
parsed measurement type and repetition index (the notebook derives bpt
and bpi by slicing the bpvar string; here bpvar is carried already
parsed), and the measurement value bp. -/
structure LongRow where
  seqn : ℤ
  ridageyr : ℚ
  riagendr : ℚ
  bmxbmi : Option ℚ
  bpt : BPType
  bpi : ℕ
  bp : Option ℚ
deriving DecidableEq

/-- The long row produced from wide row r for measurement column v. -/
def mkLong (r : WideRow) (v : BPType × ℕ) : LongRow :=
  { seqn := r.seqn, ridageyr := r.ridageyr, riagendr := r.riagendr
    bmxbmi := r.bmxbmi, bpt := v.1, bpi := v.2, bp := getVar r v }

/-- pd.melt(df, id_vars, value_vars): for each value_var in order, one
block holding every input row's value of that column. -/
def meltTable (df : List WideRow) : List LongRow :=
  vvars.flatMap fun v => df.map fun r => mkLong r v

/-- Insert a row into a list that is already sorted by seqn. -/
def insertBySeqn (r : LongRow) : List LongRow → List LongRow
  | [] => [r]
  | a :: l => if r.seqn ≤ a.seqn then r :: a :: l else a :: insertBySeqn r l

/-- dx.sort_values(by='SEQN'), modelled as a stable insertion sort on
the subject id (ties keep their melt order). -/
def sortBySeqn : List LongRow → List LongRow
  | [] => []
  | a :: l => insertBySeqn a (sortBySeqn l)

/-- The complete-case test of dx.dropna(): true when no field of the
long row is missing (seqn, age and sex are never missing here). -/
def keepRow (row : LongRow) : Bool := row.bmxbmi.isSome && row.bp.isSome

/-- The long table as it stands after cell 9 and the derived columns:
melted, sorted by subject id, then complete-case filtered. -/
def dxTable (df : List WideRow) : List LongRow :=
  (sortBySeqn (meltTable df)).filter keepRow

/-- The derived binary sex indicator, female = (RIAGENDR == 2). -/
def female (row : LongRow) : ℚ := if row.riagendr = 2 then 1 else 0

/-- The diastolic readings of subject s in the long table: the bp values
of the rows with bpt = DI and the given subject id (group-by key). -/
def diVals (dx : List LongRow) (s : ℤ) : List ℚ :=
  (dx.filter fun row => decide (row.bpt = BPType.DI ∧ row.seqn = s)).filterMap
    fun row => row.bp

/-- The group-by mean di_mean for subject s: none when the subject has
no diastolic reading (no group, hence no entry in the merge index),
otherwise the arithmetic mean of the subject's diastolic values. -/
def diMean (dx : List LongRow) (s : ℤ) : Option ℚ :=
  if diVals dx s = [] then none
  else some ((diVals dx s).sum / ((diVals dx s).length : ℚ))

/-- A long row with the merged di_mean column attached. -/
structure MergedRow where
  seqn : ℤ
  ridageyr : ℚ
  riagendr : ℚ
  bmxbmi : Option ℚ
  bpt : BPType
  bpi : ℕ
  bp : Option ℚ
  di_mean : ℚ
deriving DecidableEq

/-- Attach a di_mean value to a long row. -/
def attachMean (row : LongRow) (v : ℚ) : MergedRow :=
  { seqn := row.seqn, ridageyr := row.ridageyr, riagendr := row.riagendr
    bmxbmi := row.bmxbmi, bpt := row.bpt, bpi := row.bpi, bp := row.bp
    di_mean := v }

/-- pd.merge(dx, di_mean, left_on="SEQN", right_index=True): an inner
join in left order; a row whose subject id has no di_mean entry is
dropped, every other row gets the subject's di_mean attached. -/
def mergedTable (df : List WideRow) : List MergedRow :=
  (dxTable df).filterMap fun row => (diMean (dxTable df) row.seqn).map (attachMean row)

/-- dx = dx.iloc[0:5000, :]: the table every subsequent model is fit on. -/
def dxFinal (df : List WideRow) : List MergedRow := (mergedTable df).take 5000

/-- ds2 = dx.loc[dx.bpt == "SY"]: the data of model2 and model3. -/
def ds2 (df : List WideRow) : List MergedRow :=
  (dxFinal df).filter fun row => decide (row.bpt = BPType.SY)

/-- ds3 = dx.loc[dx.bpt == "DI"]: the data of model4, model5, model6. -/
def ds3 (df : List WideRow) : List MergedRow :=
  (dxFinal df).filter fun row => decide (row.bpt = BPType.DI)

/-- The identifier columns of a wide row (the melt id_vars). -/
def wideIds (r : WideRow) : ℤ × ℚ × ℚ × Option ℚ :=
  (r.seqn, r.ridageyr, r.riagendr, r.bmxbmi)

/-- The identifier columns of a long row. -/
def longIds (row : LongRow) : ℤ × ℚ × ℚ × Option ℚ :=
  (row.seqn, row.ridageyr, row.riagendr, row.bmxbmi)

/-- The derived intraclass correlation of a random-intercept fit,
icc = cov_re / (cov_re + scale), applied to the solver's estimated
random-intercept variance and residual scale. -/
noncomputable def icc (v s : ℝ) : ℝ := v / (v + s)

/- ===== Concrete tables used by witnesses and counterexamples ===== -/

/-- A subject (id 2) with one systolic reading and no diastolic one. -/
def wideA : WideRow :=
  { seqn := 2, ridageyr := 40, riagendr := 2, bmxbmi := some 25
    bpxsy1 := some 120, bpxsy2 := none, bpxsy3 := none, bpxsy4 := none
    bpxdi1 := none, bpxdi2 := none, bpxdi3 := none, bpxdi4 := none }

/-- A subject (id 1) with one systolic and two diastolic readings. -/
def wideB : WideRow :=
  { seqn := 1, ridageyr := 30, riagendr := 1, bmxbmi := some 22
    bpxsy1 := some 120, bpxsy2 := none, bpxsy3 := none, bpxsy4 := none
    bpxdi1 := some 70, bpxdi2 := some 80, bpxdi3 := none, bpxdi4 := none }

/-- A subject (id 1) with all eight readings present. -/
def wideFull : WideRow :=
  { seqn := 1, ridageyr := 50, riagendr := 1, bmxbmi := some 27
    bpxsy1 := some 121, bpxsy2 := some 122, bpxsy3 := some 123, bpxsy4 := some 124
    bpxdi1 := some 71, bpxdi2 := some 72, bpxdi3 := some 73, bpxdi4 := some 74 }

/-- Single-subject table: systolic readings only. -/
def dfA : List WideRow := [wideA]

/-- Single-subject table with both measurement types. -/
def dfB : List WideRow := [wideB]

/-- Two subjects: subject 1 has both types, subject 2 systolic only. -/
def dfAB : List WideRow := [wideB, wideA]

/-- 626 wide rows of one subject: 5008 complete long rows, so the
iloc[0:5000] truncation cuts inside this subject. -/
def dfRep : List WideRow := List.replicate 626 wideFull

/- ===== Theorems: mediation notebook ===== -/

/-- C2: for every mode and every realization of the draw streams, gendat
returns rows in which x is the exposure draw, m = (x + e)/sqrt 2 for the
independent mediator draw e, and y = x + noise when mode = 0,
y = m + noise when mode = 1, and y = m + x + noise when mode = 2, the
noise being a fresh draw from its own stream. -/
theorem gendat_recipe (mode : ℤ) (xd ed yd : ℕ → ℝ) (i : ℕ) :
    (gendat mode xd ed yd).x i = xd i ∧
    (gendat mode xd ed yd).m i = (xd i + ed i) / Real.sqrt 2 ∧
    (mode = 0 → (gendat mode xd ed yd).y i = xd i + yd i) ∧
    (mode = 1 → (gendat mode xd ed yd).y i = (gendat mode xd ed yd).m i + yd i) ∧
    (mode = 2 →
      (gendat mode xd ed yd).y i
        = (gendat mode xd ed yd).m i + (gendat mode xd ed yd).x i + yd i) := by
  refine ⟨rfl, rfl, ?_, ?_, ?_⟩ <;> rintro rfl <;> simp [gendat]

/-- Witness for C2: the three mode recipes evaluated at concrete streams. -/
theorem gendat_recipe_witness :
    (gendat 0 (fun _ => 1) (fun _ => 2) (fun _ => 3)).y 0 = 1 + 3 ∧
    (gendat 1 (fun _ => 1) (fun _ => 2) (fun _ => 3)).y 0
      = (gendat 1 (fun _ => 1) (fun _ => 2) (fun _ => 3)).m 0 + 3 ∧
    (gendat 2 (fun _ => 1) (fun _ => 2) (fun _ => 3)).y 0
      = (gendat 2 (fun _ => 1) (fun _ => 2) (fun _ => 3)).m 0
        + (gendat 2 (fun _ => 1) (fun _ => 2) (fun _ => 3)).x 0 + 3 :=
  ⟨(gendat_recipe 0 _ _ _ 0).2.2.1 rfl,
   (gendat_recipe 1 _ _ _ 0).2.2.2.1 rfl,
   (gendat_recipe 2 _ _ _ 0).2.2.2.2 rfl⟩

/-- C9: for every integer mode other than 0 and 1 (for example 3 or -1),
gendat does not reject the input and generates the outcome by the
partial-mediation else branch, y = m + x + noise. -/
theorem gendat_mode_fallback (mode : ℤ) (h0 : mode ≠ 0) (h1 : mode ≠ 1)
    (xd ed yd : ℕ → ℝ) (i : ℕ) :
    (gendat mode xd ed yd).y i
      = (gendat mode xd ed yd).m i + (gendat mode xd ed yd).x i + yd i := by
  simp [gendat, h0, h1]

/-- Witness for C9: the undocumented modes 3 and -1 both fall through to
the partial-mediation recipe. -/
theorem gendat_mode_fallback_witness :
    (gendat 3 (fun _ => 1) (fun _ => 1) (fun _ => 1)).y 0
      = (gendat 3 (fun _ => 1) (fun _ => 1) (fun _ => 1)).m 0
        + (gendat 3 (fun _ => 1) (fun _ => 1) (fun _ => 1)).x 0 + 1 ∧
    (gendat (-1) (fun _ => 1) (fun _ => 1) (fun _ => 1)).y 0
      = (gendat (-1) (fun _ => 1) (fun _ => 1) (fun _ => 1)).m 0
        + (gendat (-1) (fun _ => 1) (fun _ => 1) (fun _ => 1)).x 0 + 1 :=
  ⟨gendat_mode_fallback 3 (by decide) (by decide) _ _ _ 0,
   gendat_mode_fallback (-1) (by decide) (by decide) _ _ _ 0⟩

/-- C1: for every mode, solver and noise realization, fake_mediation
computes the average indirect effect as the mean over the nn subjects of
the difference between the outcome predicted at exposure 0 with the
mediator at its high counterfactual draw (exposure forced to 1) and at
its low counterfactual draw (exposure forced to 0), and the average
direct effect as the mean of the difference between the outcome
predicted at exposure 1 and at exposure 0 with the mediator held at the
low draw in both; every counterfactual prediction carries additive noise
scaled by the square root of the fitted model's estimated scale. -/
theorem fake_mediation_effects (nn : ℕ) (mode : ℤ)
    (fitM : MedDF → OLSFitM) (fitO : MedDF → OLSFitO)
    (xd ed yd e1 e2 e3 e4 e5 e6 : ℕ → ℝ) :
    (fake_mediation nn mode fitM fitO xd ed yd e1 e2 e3 e4 e5 e6).aie
      = npMean nn (fun i =>
          ((fitO (gendat mode xd ed yd)).predict 0
              ((fitM (gendat mode xd ed yd)).predict 1
                + Real.sqrt (fitM (gendat mode xd ed yd)).scale * e2 i)
            + Real.sqrt (fitO (gendat mode xd ed yd)).scale * e4 i)
          - ((fitO (gendat mode xd ed yd)).predict 0
              ((fitM (gendat mode xd ed yd)).predict 0
                + Real.sqrt (fitM (gendat mode xd ed yd)).scale * e1 i)
            + Real.sqrt (fitO (gendat mode xd ed yd)).scale * e3 i)) ∧
    (fake_mediation nn mode fitM fitO xd ed yd e1 e2 e3 e4 e5 e6).ade
      = npMean nn (fun i =>
          ((fitO (gendat mode xd ed yd)).predict 1
              ((fitM (gendat mode xd ed yd)).predict 0
                + Real.sqrt (fitM (gendat mode xd ed yd)).scale * e1 i)
            + Real.sqrt (fitO (gendat mode xd ed yd)).scale * e6 i)
          - ((fitO (gendat mode xd ed yd)).predict 0
              ((fitM (gendat mode xd ed yd)).predict 0
                + Real.sqrt (fitM (gendat mode xd ed yd)).scale * e1 i)
            + Real.sqrt (fitO (gendat mode xd ed yd)).scale * e5 i)) :=
  ⟨rfl, rfl⟩

/-- C5: for both effects, the reported standard error is the standard
deviation of the nn per-unit counterfactual contrasts (np.std, the root
mean squared deviation about the sample mean) divided by the square root
of the sample size nn. -/
theorem fake_mediation_se (nn : ℕ) (mode : ℤ)
    (fitM : MedDF → OLSFitM) (fitO : MedDF → OLSFitO)
    (xd ed yd e1 e2 e3 e4 e5 e6 : ℕ → ℝ) :
    (fake_mediation nn mode fitM fitO xd ed yd e1 e2 e3 e4 e5 e6).aie_se
      = npStd nn (fun i =>
          ((fitO (gendat mode xd ed yd)).predict 0
              ((fitM (gendat mode xd ed yd)).predict 1
                + Real.sqrt (fitM (gendat mode xd ed yd)).scale * e2 i)
            + Real.sqrt (fitO (gendat mode xd ed yd)).scale * e4 i)
          - ((fitO (gendat mode xd ed yd)).predict 0
              ((fitM (gendat mode xd ed yd)).predict 0
                + Real.sqrt (fitM (gendat mode xd ed yd)).scale * e1 i)
            + Real.sqrt (fitO (gendat mode xd ed yd)).scale * e3 i))
        / Real.sqrt nn ∧
    (fake_mediation nn mode fitM fitO xd ed yd e1 e2 e3 e4 e5 e6).ade_se
      = npStd nn (fun i =>
          ((fitO (gendat mode xd ed yd)).predict 1
              ((fitM (gendat mode xd ed yd)).predict 0
                + Real.sqrt (fitM (gendat mode xd ed yd)).scale * e1 i)
            + Real.sqrt (fitO (gendat mode xd ed yd)).scale * e6 i)
          - ((fitO (gendat mode xd ed yd)).predict 0
              ((fitM (gendat mode xd ed yd)).predict 0
                + Real.sqrt (fitM (gendat mode xd ed yd)).scale * e1 i)
            + Real.sqrt (fitO (gendat mode xd ed yd)).scale * e5 i))
        / Real.sqrt nn :=
  ⟨rfl, rfl⟩

/-- C8: the derived intraclass correlation v / (v + s) lies in [0, 1]
whenever the random-intercept variance v and the residual scale s are
non-negative with positive sum. -/
theorem icc_in_unit_interval (v s : ℝ) (hv : 0 ≤ v) (hs : 0 ≤ s)
    (hsum : 0 < v + s) : 0 ≤ icc v s ∧ icc v s ≤ 1 := by
  constructor
  · exact div_nonneg hv hsum.le
  · exact (div_le_one hsum).mpr (le_add_of_nonneg_right hs)

/-- Witness for C8: the invariant evaluated at variance 3 and scale 1. -/
theorem icc_in_unit_interval_witness : 0 ≤ icc 3 1 ∧ icc 3 1 ≤ 1 :=
  icc_in_unit_interval 3 1 (by norm_num) (by norm_num) (by norm_num)

/- ===== Helper lemmas: NHANES pipeline ===== -/

theorem mem_insertBySeqn {a r : LongRow} {l : List LongRow} :
    a ∈ insertBySeqn r l ↔ a = r ∨ a ∈ l := by
  induction l with
  | nil => simp [insertBySeqn]
  | cons b l ih =>
    by_cases h : r.seqn ≤ b.seqn
    · simp [insertBySeqn, h]
    · simp [insertBySeqn, h, ih]
      tauto

theorem length_insertBySeqn (r : LongRow) (l : List LongRow) :
    (insertBySeqn r l).length = l.length + 1 := by
  induction l with
  | nil => rfl
  | cons b l ih =>
    by_cases h : r.seqn ≤ b.seqn <;> simp [insertBySeqn, h, ih]

theorem mem_sortBySeqn {a : LongRow} {l : List LongRow} :
    a ∈ sortBySeqn l ↔ a ∈ l := by
  induction l with
  | nil => simp [sortBySeqn]
  | cons b l ih => simp [sortBySeqn, mem_insertBySeqn, ih]

theorem length_sortBySeqn (l : List LongRow) :
    (sortBySeqn l).length = l.length := by
  induction l with
  | nil => rfl
  | cons b l ih => simp [sortBySeqn, length_insertBySeqn, ih]

theorem insertBySeqn_of_le {r : LongRow} {l : List LongRow}
    (h : ∀ b ∈ l, r.seqn ≤ b.seqn) : insertBySeqn r l = r :: l := by
  cases l with
  | nil => rfl
  | cons b l => simp [insertBySeqn, h b (List.mem_cons_self b l)]

theorem sortBySeqn_const {s : ℤ} {l : List LongRow}
    (h : ∀ a ∈ l, a.seqn = s) : sortBySeqn l = l := by
  induction l with
  | nil => rfl
  | cons b l ih =>
    have hb : b.seqn = s := h b (List.mem_cons_self b l)
    have hl : ∀ a ∈ l, a.seqn = s := fun a ha => h a (List.mem_cons_of_mem b ha)
    rw [sortBySeqn, ih hl, insertBySeqn_of_le]
    intro a ha
    rw [hb, hl a ha]

theorem mem_meltTable {row : LongRow} {df : List WideRow} :
    row ∈ meltTable df ↔ ∃ v ∈ vvars, ∃ r ∈ df, row = mkLong r v := by
  simp only [meltTable, List.mem_flatMap, List.mem_map]
  constructor
  · rintro ⟨v, hv, r, hr, rfl⟩
    exact ⟨v, hv, r, hr, rfl⟩
  · rintro ⟨v, hv, r, hr, rfl⟩
    exact ⟨v, hv, r, hr, rfl⟩

theorem mem_dxTable {row : LongRow} {df : List WideRow} :
    row ∈ dxTable df ↔ row ∈ meltTable df ∧ keepRow row = true := by
  simp [dxTable, List.mem_filter, mem_sortBySeqn]

theorem filterMap_eq_map_of_forall {α β : Type} (f : α → Option β) (g : α → β)
    (l : List α) (h : ∀ a ∈ l, f a = some (g a)) : l.filterMap f = l.map g := by
  induction l with
  | nil => rfl
  | cons a l ih =>
    rw [List.filterMap_cons, h a (List.mem_cons_self a l), List.map_cons,
      ih fun b hb => h b (List.mem_cons_of_mem a hb)]

theorem getElem?_flatMap_map {V W L : Type} (df : List W) (f : W → V → L) :
    ∀ (l : List V) (j : ℕ), j < l.length * df.length →
      (l.flatMap fun v => df.map fun r => f r v)[j]?
        = (df[j % df.length]?).bind fun r => (l[j / df.length]?).map fun v => f r v := by
  intro l
  induction l with
  | nil => intro j hj; simp at hj
  | cons v l ih =>
    intro j hj
    have hn : 0 < df.length := by
      rcases Nat.eq_zero_or_pos df.length with h0 | h0
      · rw [h0] at hj; simp at hj
      · exact h0
    have hexp : (v :: l).length * df.length = l.length * df.length + df.length := by
      rw [List.length_cons, Nat.succ_mul]
    rw [List.flatMap_cons, List.getElem?_append]
    simp only [List.length_map]
    by_cases hlt : j < df.length
    · rw [if_pos hlt, List.getElem?_map, Nat.mod_eq_of_lt hlt, Nat.div_eq_of_lt hlt]
      simp only [List.getElem?_cons_zero]
      cases hr : df[j]? <;> simp
    · rw [if_neg hlt]
      push_neg at hlt
      have hj' : j - df.length < l.length * df.length := by
        rw [hexp, Nat.add_comm] at hj
        exact (Nat.sub_lt_iff_lt_add hlt).mpr hj
      rw [ih (j - df.length) hj', Nat.mod_eq_sub_mod hlt,
        Nat.div_eq_sub_div hn hlt]
      simp only [List.getElem?_cons_succ]

theorem length_meltTable (df : List WideRow) :
    (meltTable df).length = 8 * df.length := by
  simp only [meltTable, List.length_flatMap, vvars, List.map_cons, List.map_nil,
    Function.comp_apply, List.length_map, List.sum_cons, List.sum_nil]
  omega

/- ===== Theorems: NHANES pipeline ===== -/

/-- C7: the wide-to-long melt produces exactly 8 times the input row
count (four systolic plus four diastolic columns), before any missing
value filtering, and the identifier columns of the output row at
position j are copied from exactly one input row, the one at position
j mod n. -/
theorem melt_shape (df : List WideRow) :
    (meltTable df).length = 8 * df.length ∧
    ∀ j : ℕ, j < 8 * df.length →
      ((meltTable df)[j]?).map longIds = (df[j % df.length]?).map wideIds := by
  refine ⟨length_meltTable df, ?_⟩
  intro j hj
  have hn : 0 < df.length := by
    rcases Nat.eq_zero_or_pos df.length with h0 | h0
    · rw [h0] at hj; omega
    · exact h0
  have hlen : j < vvars.length * df.length := hj
  rw [meltTable, getElem?_flatMap_map df (fun r v => mkLong r v) vvars j hlen]
  have hdiv : j / df.length < vvars.length := (Nat.div_lt_iff_lt_mul hn).mpr hlen
  rw [List.getElem?_eq_getElem hdiv]
  cases hr : df[j % df.length]? <;> simp [longIds, wideIds, mkLong]

/-- Witness for C7: the melt of the one-row table dfB has 8 rows and row
5 (the second diastolic row) carries the identifiers of input row 0. -/
theorem melt_shape_witness :
    (meltTable dfB).length = 8 * dfB.length ∧
    ((meltTable dfB)[5]?).map longIds = (dfB[5 % dfB.length]?).map wideIds :=
  ⟨(melt_shape dfB).1, (melt_shape dfB).2 5 (by decide)⟩

/-- C6: complete-case filtering acts on melted long rows, so it removes
exactly the long rows whose own value is missing: every long row of a
wide row r with a present reading (and present BMI) survives into the
filtered long table, and every row of the filtered table has a present
bp value — a missing reading removes only its own long-form row. -/
theorem dropna_after_melt (df : List WideRow) (r : WideRow) (v : BPType × ℕ)
    (hr : r ∈ df) (hv : v ∈ vvars) (hval : (getVar r v).isSome = true)
    (hbmi : r.bmxbmi.isSome = true) (row : LongRow) (hrow : row ∈ dxTable df) :
    mkLong r v ∈ dxTable df ∧ row.bp.isSome = true := by
  constructor
  · refine mem_dxTable.mpr ⟨mem_meltTable.mpr ⟨v, hv, r, hr, rfl⟩, ?_⟩
    simp [keepRow, mkLong, hbmi, hval]
  · have hk := (mem_dxTable.mp hrow).2
    simp only [keepRow, Bool.and_eq_true] at hk
    exact hk.2

/-- Witness for C6: in dfB the second systolic reading is missing while
the first is present; the first reading's long row survives the filter
and has a present value. -/
theorem dropna_after_melt_witness :
    (getVar wideB (BPType.SY, 2)).isSome = false ∧
    mkLong wideB (BPType.SY, 1) ∈ dxTable dfB ∧
    (mkLong wideB (BPType.SY, 1)).bp.isSome = true := by
  refine ⟨rfl, ?_, ?_⟩
  · exact (dropna_after_melt dfB wideB (BPType.SY, 1) (by decide) (by decide)
      (by decide) (by decide) (mkLong wideB (BPType.SY, 1)) (by decide)).1
  · exact (dropna_after_melt dfB wideB (BPType.SY, 1) (by decide) (by decide)
      (by decide) (by decide) (mkLong wideB (BPType.SY, 1)) (by decide)).2

/-- C4: for a subject s with at least one non-missing diastolic reading
in the filtered long table, every merged row of that subject (in
particular every systolic row) carries di_mean equal to the arithmetic
mean of exactly the subject's own diastolic readings: their sum divided
by their count, no other subject's readings and no systolic readings
contributing. -/
theorem di_mean_per_subject (df : List WideRow) (s : ℤ) (row : MergedRow)
    (hrow : row ∈ mergedTable df) (hs : row.seqn = s) (_hsy : row.bpt = BPType.SY)
    (hk : diVals (dxTable df) s ≠ []) :
    row.di_mean
      = (diVals (dxTable df) s).sum / ((diVals (dxTable df) s).length : ℚ) := by
  rcases List.mem_filterMap.mp hrow with ⟨lr, _, hmap⟩
  rcases Option.map_eq_some'.mp hmap with ⟨m, hm, hrow_eq⟩
  have hseqn : lr.seqn = s := by rw [← hs, ← hrow_eq]; rfl
  rw [hseqn] at hm
  simp only [diMean, if_neg hk] at hm
  rw [← hrow_eq]
  exact (Option.some_inj.mp hm).symm

/-- Witness for C4: in dfB subject 1 has diastolic readings 70 and 80;
the merged systolic row carries their mean, which evaluates to 75. -/
theorem di_mean_per_subject_witness :
    diVals (dxTable dfB) 1 ≠ [] ∧
    (attachMean (mkLong wideB (BPType.SY, 1))
        ((diVals (dxTable dfB) 1).sum / ((diVals (dxTable dfB) 1).length : ℚ))).di_mean
      = (diVals (dxTable dfB) 1).sum / ((diVals (dxTable dfB) 1).length : ℚ) ∧
    (diVals (dxTable dfB) 1).sum / ((diVals (dxTable dfB) 1).length : ℚ) = 75 := by
  have hk : diVals (dxTable dfB) 1 ≠ [] := by decide
  have hmem : attachMean (mkLong wideB (BPType.SY, 1))
      ((diVals (dxTable dfB) 1).sum / ((diVals (dxTable dfB) 1).length : ℚ))
        ∈ mergedTable dfB := by
    refine List.mem_filterMap.mpr ⟨mkLong wideB (BPType.SY, 1), by decide, ?_⟩
    simp only [diMean, if_neg hk]
    rfl
  refine ⟨hk, di_mean_per_subject dfB 1 _ hmem rfl rfl hk, ?_⟩
  have hvals : diVals (dxTable dfB) 1 = [70, 80] := by decide
  rw [hvals]
  norm_num

/-- C3 counterexample: in dfA subject 2 has a surviving systolic long
row and no diastolic reading, yet ds2 — the data model2 is fit on — is
empty: the subject's systolic rows do NOT remain in model2's data. -/
theorem systolic_only_dropped_cex :
    (∃ row ∈ dxTable dfA, row.seqn = 2 ∧ row.bpt = BPType.SY) ∧ ds2 dfA = [] := by
  constructor
  · exact ⟨mkLong wideA (BPType.SY, 1), by decide, rfl, rfl⟩
  · rfl

/-- C3 amended: a subject with systolic readings but no diastolic ones
in the filtered long table gets no match in the inner derived-mean join,
so every one of its rows — systolic ones included — is dropped there and
is absent from the data of every subsequent model, model2 as much as
model3. -/
theorem systolic_only_subject_dropped (df : List WideRow) (s : ℤ) (row : MergedRow)
    (_hsy : ∃ lr ∈ dxTable df, lr.seqn = s ∧ lr.bpt = BPType.SY)
    (hnoDI : ∀ lr ∈ dxTable df, lr.seqn = s → lr.bpt ≠ BPType.DI)
    (hrow : row ∈ mergedTable df ∨ row ∈ ds2 df) :
    row.seqn ≠ s := by
  have hmain : ∀ q ∈ mergedTable df, q.seqn ≠ s := by
    intro q hq hqs
    rcases List.mem_filterMap.mp hq with ⟨lr, _, hmap⟩
    rcases Option.map_eq_some'.mp hmap with ⟨m, hm, hq_eq⟩
    have hseqn : lr.seqn = s := by rw [← hqs, ← hq_eq]; rfl
    rw [hseqn] at hm
    simp only [diMean] at hm
    by_cases hempty : diVals (dxTable df) s = []
    · rw [if_pos hempty] at hm
      exact Option.noConfusion hm
    · rcases List.exists_mem_of_ne_nil _ hempty with ⟨val, hval⟩
      rcases List.mem_filterMap.mp hval with ⟨lr2, hlr2, _⟩
      have hlr2m := List.mem_filter.mp hlr2
      have hp := hlr2m.2
      simp only [decide_eq_true_eq] at hp
      exact hnoDI lr2 hlr2m.1 hp.2 hp.1
  rcases hrow with h | h
  · exact hmain row h
  · exact hmain row (List.mem_of_mem_take (List.mem_of_mem_filter h))

/-- Witness for the amended C3: in dfAB subject 2 is systolic-only, so
the surviving merged row of subject 1 is not subject 2's. -/
theorem systolic_only_subject_dropped_witness :
    (attachMean (mkLong wideB (BPType.SY, 1))
        ((diVals (dxTable dfAB) 1).sum / ((diVals (dxTable dfAB) 1).length : ℚ))).seqn
      ≠ 2 := by
  have hk : diVals (dxTable dfAB) 1 ≠ [] := by decide
  have hmem : attachMean (mkLong wideB (BPType.SY, 1))
      ((diVals (dxTable dfAB) 1).sum / ((diVals (dxTable dfAB) 1).length : ℚ))
        ∈ mergedTable dfAB := by
    refine List.mem_filterMap.mpr ⟨mkLong wideB (BPType.SY, 1), by decide, ?_⟩
    simp only [diMean, if_neg hk]
    rfl
  exact systolic_only_subject_dropped dfAB 2 _
    ⟨mkLong wideA (BPType.SY, 1), by decide, rfl, rfl⟩
    (by decide) (Or.inl hmem)

/-- C10: every model in the sequence is fit on data determined by the
first 5000 rows of the sorted, filtered, derived-mean-joined long table
alone — two pipelines whose merged tables agree on those 5000 rows yield
identical model data (dx, ds2 and ds3), so rows beyond position 5000
never influence a fit — and the truncation can split a subject: in
dfRep one subject's 5008 merged rows straddle the cut, appearing both
inside the kept prefix and in the dropped tail. -/
theorem models_use_first_5000 :
    (∀ df1 df2 : List WideRow,
        (mergedTable df1).take 5000 = (mergedTable df2).take 5000 →
          dxFinal df1 = dxFinal df2 ∧ ds2 df1 = ds2 df2 ∧ ds3 df1 = ds3 df2) ∧
    ((mergedTable dfRep).length = 5008 ∧
      (∃ row ∈ dxFinal dfRep, row.seqn = 1) ∧
      (∃ row ∈ (mergedTable dfRep).drop 5000, row.seqn = 1)) := by
  constructor
  · intro df1 df2 h
    refine ⟨h, ?_, ?_⟩ <;> simp only [ds2, ds3, dxFinal, h]
  · have hmelt_mem : ∀ row ∈ meltTable dfRep, ∃ v ∈ vvars, row = mkLong wideFull v := by
      intro row h
      rcases mem_meltTable.mp h with ⟨v, hv, r, hr, he⟩
      have : r = wideFull := (List.mem_replicate.mp hr).2
      rw [this] at he
      exact ⟨v, hv, he⟩
    have hseqn_melt : ∀ row ∈ meltTable dfRep, row.seqn = 1 := by
      intro row h
      rcases hmelt_mem row h with ⟨v, _, rfl⟩
      rfl
    have hsort : sortBySeqn (meltTable dfRep) = meltTable dfRep :=
      sortBySeqn_const (s := 1) hseqn_melt
    have hkeepAll : ∀ v ∈ vvars, keepRow (mkLong wideFull v) = true := by decide
    have hkeep : ∀ row ∈ meltTable dfRep, keepRow row = true := by
      intro row h
      rcases hmelt_mem row h with ⟨v, hv, rfl⟩
      exact hkeepAll v hv
    have hdx : dxTable dfRep = meltTable dfRep := by
      rw [dxTable, hsort, List.filter_eq_self.mpr hkeep]
    have hlen_melt : (meltTable dfRep).length = 5008 := by
      rw [length_meltTable, dfRep, List.length_replicate]
    have hDIrow : mkLong wideFull (BPType.DI, 1) ∈ dxTable dfRep := by
      rw [hdx]
      exact mem_meltTable.mpr ⟨(BPType.DI, 1), by decide, wideFull,
        List.mem_replicate.mpr ⟨by norm_num, rfl⟩, rfl⟩
    have hdiVals_ne : diVals (dxTable dfRep) 1 ≠ [] := by
      intro hcontra
      have h71 : (71 : ℚ) ∈ diVals (dxTable dfRep) 1 :=
        List.mem_filterMap.mpr ⟨mkLong wideFull (BPType.DI, 1),
          List.mem_filter.mpr ⟨hDIrow, by decide⟩, rfl⟩
      rw [hcontra] at h71
      exact absurd h71 (List.not_mem_nil _)
    have hdiMean1 : diMean (dxTable dfRep) 1
        = some ((diVals (dxTable dfRep) 1).sum / ((diVals (dxTable dfRep) 1).length : ℚ)) := by
      simp only [diMean, if_neg hdiVals_ne]
    have hmerged : mergedTable dfRep = (dxTable dfRep).map
        (fun row => attachMean row
          ((diVals (dxTable dfRep) 1).sum / ((diVals (dxTable dfRep) 1).length : ℚ))) := by
      apply filterMap_eq_map_of_forall
      intro row hrow
      have h1 : row.seqn = 1 := by
        rw [hdx] at hrow
        exact hseqn_melt row hrow
      rw [h1, hdiMean1]
      rfl
    have hlen : (mergedTable dfRep).length = 5008 := by
      rw [hmerged, List.length_map, hdx, hlen_melt]
    have hseqn_merged : ∀ row ∈ mergedTable dfRep, row.seqn = 1 := by
      intro row h
      rw [hmerged] at h
      rcases List.mem_map.mp h with ⟨lr, hlr, rfl⟩
      have : lr.seqn = 1 := by
        rw [hdx] at hlr
        exact hseqn_melt lr hlr
      exact this
    refine ⟨hlen, ?_, ?_⟩
    · have htake_len : (dxFinal dfRep).length = 5000 := by
        rw [dxFinal, List.length_take, hlen]
        norm_num
      have hne : dxFinal dfRep ≠ [] := by
        intro hc
        rw [hc] at htake_len
        exact absurd htake_len (by norm_num)
      rcases List.exists_mem_of_ne_nil _ hne with ⟨row, hrow⟩
      exact ⟨row, hrow, hseqn_merged row (List.mem_of_mem_take hrow)⟩
    · have hdrop_len : ((mergedTable dfRep).drop 5000).length = 8 := by
        rw [List.length_drop, hlen]
      have hne : (mergedTable dfRep).drop 5000 ≠ [] := by
        intro hc
        rw [hc] at hdrop_len
        exact absurd hdrop_len (by norm_num)
      rcases List.exists_mem_of_ne_nil _ hne with ⟨row, hrow⟩
      exact ⟨row, hrow, hseqn_merged row (List.mem_of_mem_drop hrow)⟩

/-- Witness for C10: the determinacy statement applied to the empty
pipeline, whose take-5000 prefixes trivially agree. -/
theorem models_use_first_5000_witness :
    dxFinal ([] : List WideRow) = dxFinal [] ∧
    ds2 ([] : List WideRow) = ds2 [] ∧ ds3 ([] : List WideRow) = ds3 [] :=
  models_use_first_5000.1 [] [] rfl
